import Mathlib

/-!
Verification of the scrape route of the sagashi repository
(`src/app/api/scrape/route.ts`), as a shallow embedding in Lean.

Strings are modelled as lists of characters (`Str`), so that the
JavaScript string operations used by the route (`split`, `trim`,
`join`, `filter`, truthiness of strings) become executable list
functions with the same semantics.
-/

set_option autoImplicit false

namespace Sagashi

/-- JS strings, modelled as lists of characters. -/
abbrev Str := List Char

/-- Whitespace characters recognised by the JS `trim` and the regex
class used in the route.  The model covers the ASCII whitespace
characters (space, tab, line feed, carriage return, vertical tab,
form feed); exotic Unicode space code points are outside the model. -/
def isJsSpace (c : Char) : Bool :=
  c = ' ' || c = '\t' || c = '\n' || c = '\r' || c = '\x0b' || c = '\x0c'

/-- JS `a || b` on two strings: the empty string is falsy. -/
def jsOr (a b : Str) : Str := if a = [] then b else a

/-- JS `a || b` where `a` may be `null`/`undefined` (modelled as
`Option`): both `none` and the empty string fall through to `b`. -/
def jsOrS (a : Option Str) (b : Str) : Str :=
  match a with
  | none => b
  | some s => if s = [] then b else s

/-- JS `String.prototype.trim`: drop whitespace from both ends. -/
def trimChars (s : Str) : Str :=
  ((s.dropWhile isJsSpace).reverse.dropWhile isJsSpace).reverse

/-- JS `str.split('\n')` (split at every line-feed character;
`"".split('\n')` is `[""]`). -/
def splitOnNl : Str → List Str
  | [] => [[]]
  | c :: cs =>
    let r := splitOnNl cs
    if c = '\n' then [] :: r else (c :: r.headD []) :: r.tail

/-- JS `lines.join('\n\n')`. -/
def joinBlank : List Str → Str
  | [] => []
  | [l] => l
  | l :: l' :: ls => l ++ '\n' :: '\n' :: joinBlank (l' :: ls)

/-- The filter of line 81 of route.ts: `line.length > 0`. -/
def keepLine (l : Str) : Bool := decide (0 < l.length)

/-- Lines 78-82 of route.ts: split the article text into lines, trim
each line, drop the now-empty lines, and join with double newlines. -/
def cleanedTextContent (s : Str) : Str :=
  joinBlank (((splitOnNl s).map trimChars).filter keepLine)

/-- JS `str.split(/\s+/)`: maximal whitespace runs act as a single
separator, so an empty fragment only appears for a run touching the
start or the end of the string.  A whitespace character followed by a
further whitespace character belongs to the same separator run and
contributes nothing; a whitespace character followed by a
non-whitespace character (or by the end) closes one fragment. -/
def splitWsRuns : Str → List Str
  | [] => [[]]
  | [c] => if isJsSpace c then [[], []] else [[c]]
  | c :: c' :: cs =>
    let r := splitWsRuns (c' :: cs)
    if isJsSpace c then
      if isJsSpace c' then r else [] :: r
    else (c :: r.headD []) :: r.tail

/-- Line 120 of route.ts:
`mainText ? mainText.split(/\s+/).filter(Boolean).length : 0`. -/
def wordCountOf (mainText : Str) : Nat :=
  if mainText = [] then 0
  else ((splitWsRuns mainText).filter keepLine).length

/-- Line 119 of route.ts:
`(cleanedTextContent || doc.body?.textContent || "").trim()`. -/
def mainTextOf (cleaned bodyText : Str) : Str :=
  trimChars (jsOr cleaned bodyText)

/-- Line 121 of route.ts: `Math.max(1, Math.ceil(wordCount / 200))`.
On natural numbers `Math.ceil(n / 200)` is `(n + 199) / 200`. -/
def readingTimeMinutes (wc : Nat) : Nat :=
  max 1 ((wc + 199) / 200)

/-- Spec-side count of whitespace-delimited non-empty tokens: a token
ends at each non-space character that is followed by a space or by the
end of the string. -/
def specTokenCount : Str → Nat
  | [] => 0
  | [c] => if isJsSpace c then 0 else 1
  | c :: c' :: cs =>
    if isJsSpace c then specTokenCount (c' :: cs)
    else if isJsSpace c' then 1 + specTokenCount (c' :: cs) else specTokenCount (c' :: cs)

/-! ### Lemmas about line splitting and joining -/

theorem splitOnNl_ne_nil (s : Str) : splitOnNl s ≠ [] := by
  cases s with
  | nil => simp [splitOnNl]
  | cons c cs =>
    simp only [splitOnNl]
    by_cases h : c = '\n' <;> simp [h]

theorem splitOnNl_append (l cs : Str) (h : '\n' ∉ l) :
    splitOnNl (l ++ cs) = (l ++ (splitOnNl cs).headD []) :: (splitOnNl cs).tail := by
  induction l with
  | nil =>
    simp only [List.nil_append]
    cases hr : splitOnNl cs with
    | nil => exact absurd hr (splitOnNl_ne_nil cs)
    | cons a t => simp
  | cons c l ih =>
    have hc : c ≠ '\n' := by
      intro hceq; subst hceq; exact h (List.mem_cons_self _ _)
    have hl : '\n' ∉ l := fun hm => h (List.mem_cons_of_mem c hm)
    have hstep : splitOnNl (c :: (l ++ cs)) =
        (c :: (splitOnNl (l ++ cs)).headD []) :: (splitOnNl (l ++ cs)).tail := by
      simp only [splitOnNl]
      rw [if_neg hc]
    rw [List.cons_append, hstep, ih hl]
    simp

theorem splitOnNl_no_newline (l : Str) (h : '\n' ∉ l) : splitOnNl l = [l] := by
  have := splitOnNl_append l [] h
  simpa [splitOnNl] using this

theorem trimChars_nil : trimChars [] = [] := rfl

/-- Normalized text in the sense of the specification: a blank-line
separated join of lines, each non-empty, newline-free and already
trimmed. -/
def NormalizedText (s : Str) : Prop :=
  ∃ ls : List Str,
    (∀ l ∈ ls, l ≠ [] ∧ '\n' ∉ l ∧ trimChars l = l) ∧ s = joinBlank ls

theorem keepLine_nil : keepLine [] = false := rfl

theorem keepLine_of_ne_nil (l : Str) (h : l ≠ []) : keepLine l = true := by
  simpa [keepLine, List.length_pos] using h

theorem cleaned_of_joinBlank (ls : List Str)
    (h : ∀ l ∈ ls, l ≠ [] ∧ '\n' ∉ l ∧ trimChars l = l) :
    ((splitOnNl (joinBlank ls)).map trimChars).filter keepLine = ls := by
  induction ls with
  | nil => simp [joinBlank, splitOnNl, trimChars_nil, keepLine]
  | cons l rest ih =>
    obtain ⟨hne, hnl, htr⟩ := h l (List.mem_cons_self l rest)
    have hrest : ∀ l' ∈ rest, l' ≠ [] ∧ '\n' ∉ l' ∧ trimChars l' = l' :=
      fun l' hl' => h l' (List.mem_cons_of_mem l hl')
    have hkeep : keepLine l = true := keepLine_of_ne_nil l hne
    cases rest with
    | nil =>
      rw [show joinBlank [l] = l from rfl, splitOnNl_no_newline l hnl]
      simp [htr, hkeep]
    | cons l' ls' =>
      have step : splitOnNl (joinBlank (l :: l' :: ls')) =
          l :: [] :: splitOnNl (joinBlank (l' :: ls')) := by
        have hj : joinBlank (l :: l' :: ls') = l ++ '\n' :: '\n' :: joinBlank (l' :: ls') := rfl
        rw [hj, splitOnNl_append l _ hnl]
        have h2 : splitOnNl ('\n' :: '\n' :: joinBlank (l' :: ls')) =
            [] :: [] :: splitOnNl (joinBlank (l' :: ls')) := by
          simp [splitOnNl]
        rw [h2]
        cases hr : splitOnNl (joinBlank (l' :: ls')) with
        | nil => exact absurd hr (splitOnNl_ne_nil _)
        | cons a t => simp
      rw [step]
      simp only [List.map_cons, htr, trimChars_nil, List.filter_cons, hkeep, keepLine_nil]
      simp only [if_true, Bool.false_eq_true, if_false]
      rw [ih hrest]

/-- C6: the text-normalization of route.ts maps every already
normalized text to itself. -/
theorem c6_normalization_idempotent (s : Str) (h : NormalizedText s) :
    cleanedTextContent s = s := by
  obtain ⟨ls, hls, rfl⟩ := h
  unfold cleanedTextContent
  rw [cleaned_of_joinBlank ls hls]

/-- Witness for C6 at the concrete normalized text "ab\n\ncd". -/
theorem c6_witness :
    NormalizedText ("ab\n\ncd".data) ∧
      cleanedTextContent ("ab\n\ncd".data) = "ab\n\ncd".data :=
  ⟨⟨[['a', 'b'], ['c', 'd']], by decide, by decide⟩,
    c6_normalization_idempotent _ ⟨[['a', 'b'], ['c', 'd']], by decide, by decide⟩⟩

/-! ### Lemmas about whitespace tokenisation -/

theorem splitWsRuns_ne_nil (s : Str) : splitWsRuns s ≠ [] := by
  induction s with
  | nil => simp [splitWsRuns]
  | cons c cs ih =>
    cases cs with
    | nil =>
      cases h : isJsSpace c <;> simp [splitWsRuns, h]
    | cons c' cs' =>
      cases h : isJsSpace c with
      | true =>
        cases h' : isJsSpace c' with
        | true => simpa [splitWsRuns, h, h'] using ih
        | false => simp [splitWsRuns, h, h']
      | false => simp [splitWsRuns, h]

theorem splitWsRuns_headD (s : Str) :
    (splitWsRuns s).headD [] = s.takeWhile (fun d => !isJsSpace d) := by
  induction s with
  | nil => rfl
  | cons c cs ih =>
    cases cs with
    | nil =>
      cases h : isJsSpace c <;> simp [splitWsRuns, List.takeWhile_cons, h]
    | cons c' cs' =>
      cases h : isJsSpace c with
      | true =>
        cases h' : isJsSpace c' with
        | true =>
          rw [List.takeWhile_cons]
          simp only [h, Bool.not_true, Bool.false_eq_true, if_false]
          rw [show splitWsRuns (c :: c' :: cs') = splitWsRuns (c' :: cs') by
                simp [splitWsRuns, h, h'],
              ih, List.takeWhile_cons]
          simp [h']
        | false => simp [splitWsRuns, List.takeWhile_cons, h, h']
      | false =>
        rw [List.takeWhile_cons]
        simp only [h, Bool.not_false, if_true]
        rw [← ih]
        simp [splitWsRuns, h]

theorem countTokens_eq_spec (s : Str) :
    ((splitWsRuns s).filter keepLine).length = specTokenCount s := by
  induction s with
  | nil => rfl
  | cons c cs ih =>
    cases cs with
    | nil =>
      cases h : isJsSpace c <;> simp [splitWsRuns, specTokenCount, h, keepLine]
    | cons c' cs' =>
      cases h : isJsSpace c with
      | true =>
        cases h' : isJsSpace c' with
        | true =>
          simpa [splitWsRuns, specTokenCount, h, h'] using ih
        | false =>
          rw [show splitWsRuns (c :: c' :: cs') = [] :: splitWsRuns (c' :: cs') by
            simp [splitWsRuns, h, h']]
          rw [List.filter_cons]
          simp only [keepLine_nil, Bool.false_eq_true, if_false]
          rw [ih]
          simp [specTokenCount, h]
      | false =>
        cases hr : splitWsRuns (c' :: cs') with
        | nil => exact absurd hr (splitWsRuns_ne_nil _)
        | cons a t =>
          have ha : a = (c' :: cs').takeWhile (fun d => !isJsSpace d) := by
            have hh := splitWsRuns_headD (c' :: cs')
            rw [hr] at hh
            simpa using hh
          have hsplit : splitWsRuns (c :: c' :: cs') = (c :: a) :: t := by
            simp [splitWsRuns, h, hr]
          rw [hr] at ih
          rw [hsplit, List.filter_cons]
          have hkeepca : keepLine (c :: a) = true := keepLine_of_ne_nil _ (by simp)
          rw [hkeepca]
          simp only [if_true, List.length_cons]
          cases h' : isJsSpace c' with
          | true =>
            have hanil : a = [] := by
              rw [ha, List.takeWhile_cons]
              simp [h']
            rw [hanil] at ih
            rw [List.filter_cons, keepLine_nil] at ih
            simp only [Bool.false_eq_true, if_false] at ih
            rw [ih]
            simp [specTokenCount, h, h']
            omega
          | false =>
            have hane : a ≠ [] := by
              rw [ha, List.takeWhile_cons]
              simp [h']
            rw [List.filter_cons, keepLine_of_ne_nil a hane] at ih
            simp only [if_true, List.length_cons] at ih
            rw [show specTokenCount (c :: c' :: cs') = specTokenCount (c' :: cs') by
              simp [specTokenCount, h, h']]
            omega

theorem wordCountOf_eq_spec (s : Str) : wordCountOf s = specTokenCount s := by
  by_cases h : s = []
  · subst h; rfl
  · rw [wordCountOf, if_neg h]
    exact countTokens_eq_spec s

/-! ### Derived statistics (route.ts lines 119-121) -/

theorem readingTimeMinutes_pos (wc : Nat) : 1 ≤ readingTimeMinutes wc :=
  le_max_left 1 _

theorem le_mul_readingTimeMinutes (wc : Nat) : wc ≤ 200 * readingTimeMinutes wc := by
  unfold readingTimeMinutes
  omega

theorem readingTimeMinutes_min (wc m : Nat) (h1 : 1 ≤ m) (h2 : wc ≤ 200 * m) :
    readingTimeMinutes wc ≤ m := by
  unfold readingTimeMinutes
  omega

/-! ### JSON-LD collection (route.ts lines 96-102) -/

/-- JSON values as produced by `JSON.parse` (numbers modelled as
integers; only the value `0` matters for truthiness). -/
inductive Json where
  | null
  | bool (b : Bool)
  | num (n : Int)
  | str (s : Str)
  | arr (elems : List Json)
  | obj (fields : List (Str × Json))

/-- JS truthiness of a JSON value: `null`, `false`, `0` and the empty
string are falsy, arrays and objects are truthy. -/
def jsTruthy : Json → Bool
  | .null => false
  | .bool b => b
  | .num n => n != 0
  | .str s => !s.isEmpty
  | .arr _ => true
  | .obj _ => true

/-- An element of the mapped array of line 96: either a parsed JSON
value, the raw script text, or `null`. -/
inductive LdEntry where
  | val (v : Json)
  | raw (s : Str)
  | nullEntry

/-- Lines 97-101: `try { return JSON.parse(s.textContent || "") }
catch { return s.textContent || null }`. -/
def jsonLdEntry (parse : Str → Option Json) (body : Str) : LdEntry :=
  match parse body with
  | some v => .val v
  | none => if body = [] then .nullEntry else .raw body

/-- The `.filter(Boolean)` of line 102 applied to an entry. -/
def ldTruthy : LdEntry → Bool
  | .val v => jsTruthy v
  | .raw s => !s.isEmpty
  | .nullEntry => false

/-- Lines 96-102: map every `application/ld+json` script body through
the parse-or-keep-raw step, then drop the falsy entries. -/
def jsonLdArray (parse : Str → Option Json) (bodies : List Str) : List LdEntry :=
  (bodies.map (jsonLdEntry parse)).filter ldTruthy

/-! ### Link deduplication and caps (route.ts lines 105-117) -/

/-- Insertion-order deduplication, as performed by
`Array.from(new Set(links))`: keep each element the first time it is
seen. -/
def dedupGo (seen : List Str) : List Str → List Str
  | [] => []
  | x :: xs => if x ∈ seen then dedupGo seen xs else x :: dedupGo (x :: seen) xs

/-- Line 108: `Array.from(new Set(links))`. -/
def jsSetDedup (l : List Str) : List Str := dedupGo [] l

/-- Line 108: `Array.from(new Set(links)).slice(0, 2000)`. -/
def uniqueLinks (links : List Str) : List Str := (jsSetDedup links).take 2000

/-! ### The rendered document and the extraction pipeline -/

/-- The article record returned by the readability heuristic
(`reader.parse()`, line 74); every field may be `null`. -/
structure Article where
  title : Option Str
  excerpt : Option Str
  content : Option Str
  textContent : Option Str

/-- The queryable rendered document (JSDOM), abstracted to the queries
the route performs on it, each in document order. -/
structure Doc where
  /-- `doc.querySelector("title")?.textContent` -/
  titleText : Option Str
  /-- content attribute of `meta[name=k]` -/
  metaName : Str → Option Str
  /-- content attribute of `meta[property=k]` -/
  metaProp : Str → Option Str
  /-- `doc.querySelector('link[rel="canonical"]')?.getAttribute("href")` -/
  canonicalHref : Option Str
  /-- bodies of the `application/ld+json` scripts -/
  ldScriptBodies : List Str
  /-- resolved `href` of every `a[href]` anchor -/
  anchorHrefs : List Str
  /-- `(tagName, textContent)` of every h1/h2/h3 heading -/
  headingNodes : List (Str × Option Str)
  /-- `(resolved src, alt attribute)` of every `img` -/
  imageNodes : List (Str × Option Str)
  /-- `doc.body?.textContent` -/
  bodyText : Option Str

/-- The article object embedded in the result (lines 132-139). -/
structure ArticleOut where
  title : Option Str
  excerpt : Option Str
  content : Option Str
  textContent : Str

/-- The extraction fields of the result record (lines 123-146),
excluding the transport-level `url`/`finalUrl`/`status`/`scrapedAt`
fields and the optional screenshot. -/
structure ExtractionResult where
  title : Str
  description : Str
  canonical : Str
  ogImage : Str
  jsonLd : List LdEntry
  article : Option ArticleOut
  links : List Str
  headings : List (Str × Str)
  images : List (Str × Str)
  wordCount : Nat
  readingTimeMinutes : Nat

/-- Lines 85-88: `meta[name=k]` content, else `meta[property=k]`
content, else the empty string. -/
def getMeta (doc : Doc) (k : Str) : Str :=
  jsOrS (doc.metaName k) (jsOrS (doc.metaProp k) [])

/-- Lines 73-146 of route.ts: the extraction pipeline, from the parsed
document and the readability result to the structured fields of the
response.  `parse` stands for `JSON.parse`, injected as a capability. -/
def extract (doc : Doc) (article : Option Article) (parse : Str → Option Json) :
    ExtractionResult :=
  let cleaned := cleanedTextContent ((article.bind Article.textContent).getD [])
  let mainText := mainTextOf cleaned (jsOrS doc.bodyText [])
  let wc := wordCountOf mainText
  { title := trimChars (jsOrS doc.titleText (jsOrS (article.bind Article.title) []))
    description :=
      jsOr (getMeta doc "description".data)
        (jsOr (getMeta doc "og:description".data) (getMeta doc "twitter:description".data))
    canonical := jsOrS doc.canonicalHref []
    ogImage := jsOr (getMeta doc "og:image".data) (getMeta doc "twitter:image".data)
    jsonLd := jsonLdArray parse doc.ldScriptBodies
    article := article.map (fun a =>
      { title := a.title, excerpt := a.excerpt, content := a.content, textContent := cleaned })
    links := uniqueLinks (doc.anchorHrefs.filter (fun s => !s.isEmpty))
    headings := doc.headingNodes.map (fun hn => (hn.1, (hn.2.map trimChars).getD []))
    images := (doc.imageNodes.map (fun im => (im.1, im.2.getD []))).take 500
    wordCount := wc
    readingTimeMinutes := readingTimeMinutes wc }

/-! ### Deduplication lemmas -/

theorem dedupGo_sublist (l : List Str) : ∀ seen, List.Sublist (dedupGo seen l) l := by
  induction l with
  | nil => intro seen; simp [dedupGo]
  | cons x xs ih =>
    intro seen
    simp only [dedupGo]
    by_cases hx : x ∈ seen
    · rw [if_pos hx]
      exact List.Sublist.cons x (ih seen)
    · rw [if_neg hx]
      exact List.Sublist.cons₂ x (ih (x :: seen))

theorem dedupGo_not_mem_seen (l : List Str) :
    ∀ seen x, x ∈ dedupGo seen l → x ∉ seen := by
  induction l with
  | nil => intro seen x hx; simp [dedupGo] at hx
  | cons y ys ih =>
    intro seen x hx
    simp only [dedupGo] at hx
    by_cases hy : y ∈ seen
    · rw [if_pos hy] at hx
      exact ih seen x hx
    · rw [if_neg hy] at hx
      rcases List.mem_cons.mp hx with h1 | h2
      · subst h1; exact hy
      · intro hseen
        exact ih (y :: seen) x h2 (List.mem_cons_of_mem y hseen)

theorem dedupGo_nodup (l : List Str) : ∀ seen, (dedupGo seen l).Nodup := by
  induction l with
  | nil => intro seen; simp [dedupGo]
  | cons y ys ih =>
    intro seen
    simp only [dedupGo]
    by_cases hy : y ∈ seen
    · rw [if_pos hy]; exact ih seen
    · rw [if_neg hy]
      refine List.nodup_cons.mpr ⟨?_, ih (y :: seen)⟩
      intro hmem
      exact dedupGo_not_mem_seen ys (y :: seen) y hmem (List.mem_cons_self y seen)

theorem dedupGo_mem (l : List Str) :
    ∀ seen x, x ∈ l → x ∈ dedupGo seen l ∨ x ∈ seen := by
  induction l with
  | nil => intro seen x hx; cases hx
  | cons y ys ih =>
    intro seen x hx
    simp only [dedupGo]
    by_cases hy : y ∈ seen
    · rw [if_pos hy]
      rcases List.mem_cons.mp hx with h1 | h2
      · subst h1; exact Or.inr hy
      · exact ih seen x h2
    · rw [if_neg hy]
      rcases List.mem_cons.mp hx with h1 | h2
      · subst h1; exact Or.inl (List.mem_cons_self _ _)
      · rcases ih (y :: seen) x h2 with h3 | h4
        · exact Or.inl (List.mem_cons_of_mem _ h3)
        · rcases List.mem_cons.mp h4 with h5 | h6
          · subst h5; exact Or.inl (List.mem_cons_self _ _)
          · exact Or.inr h6

theorem jsSetDedup_mem_iff (l : List Str) (x : Str) : x ∈ jsSetDedup l ↔ x ∈ l := by
  constructor
  · intro hx
    exact (dedupGo_sublist l []).subset hx
  · intro hx
    rcases dedupGo_mem l [] x hx with h | h
    · exact h
    · cases h

/-! ### Claims about the extraction pipeline -/

/-- C8: the links array of the result has no duplicates, is a sublist
of the document-order anchor hrefs (so first-seen order is preserved),
and is capped at 2000 entries; deduplication loses no href; the images
array is capped at 500 entries. -/
theorem c8_links_nodup_capped (doc : Doc) (article : Option Article)
    (parse : Str → Option Json) :
    (extract doc article parse).links.Nodup
  ∧ List.Sublist (extract doc article parse).links doc.anchorHrefs
  ∧ (extract doc article parse).links.length ≤ 2000
  ∧ (∀ x, x ∈ jsSetDedup (doc.anchorHrefs.filter (fun s => !s.isEmpty)) ↔
        x ∈ doc.anchorHrefs.filter (fun s => !s.isEmpty))
  ∧ (extract doc article parse).images.length ≤ 500 := by
  have hlinks : (extract doc article parse).links =
      (jsSetDedup (doc.anchorHrefs.filter (fun s => !s.isEmpty))).take 2000 := rfl
  have hsub1 : List.Sublist ((jsSetDedup (doc.anchorHrefs.filter (fun s => !s.isEmpty))).take 2000)
      (jsSetDedup (doc.anchorHrefs.filter (fun s => !s.isEmpty))) := List.take_sublist _ _
  have hsub2 : List.Sublist (jsSetDedup (doc.anchorHrefs.filter (fun s => !s.isEmpty)))
      (doc.anchorHrefs.filter (fun s => !s.isEmpty)) := dedupGo_sublist _ []
  have hsub3 : List.Sublist (doc.anchorHrefs.filter (fun s => !s.isEmpty)) doc.anchorHrefs :=
    List.filter_sublist _
  refine ⟨?_, ?_, ?_, ?_, ?_⟩
  · rw [hlinks]
    exact (dedupGo_nodup _ []).sublist hsub1
  · rw [hlinks]
    exact (hsub1.trans hsub2).trans hsub3
  · rw [hlinks]
    exact List.length_take_le 2000 _
  · exact fun x => jsSetDedup_mem_iff _ x
  · exact List.length_take_le 500 _

/-- C4: when the readability heuristic returns no article, the result
is still fully produced: the article field is `none` while title,
links, headings and images are computed from the raw document, exactly
as they would be with any article result. -/
theorem c4_no_article_degrades_gracefully (doc : Doc) (parse : Str → Option Json)
    (art : Option Article) :
    (extract doc none parse).article = none
  ∧ (extract doc none parse).title = trimChars (jsOrS doc.titleText [])
  ∧ (extract doc none parse).links = uniqueLinks (doc.anchorHrefs.filter (fun s => !s.isEmpty))
  ∧ (extract doc none parse).headings
      = doc.headingNodes.map (fun hn => (hn.1, (hn.2.map trimChars).getD []))
  ∧ (extract doc none parse).images
      = (doc.imageNodes.map (fun im => (im.1, im.2.getD []))).take 500
  ∧ (extract doc none parse).links = (extract doc art parse).links
  ∧ (extract doc none parse).headings = (extract doc art parse).headings
  ∧ (extract doc none parse).images = (extract doc art parse).images
  ∧ (extract doc none parse).jsonLd = (extract doc art parse).jsonLd :=
  ⟨rfl, rfl, rfl, rfl, rfl, rfl, rfl, rfl, rfl⟩

/-- C7: a script body that fails to parse as JSON and is non-empty
appears in the jsonLd array as its raw text; an entry that is empty,
or parses to JSON `null` or to the empty string, is dropped by the
truthiness filter. -/
theorem c7_jsonld_raw_kept_empty_dropped (parse : Str → Option Json)
    (bodies : List Str) (b : Str) (hmem : b ∈ bodies) :
    (parse b = none → b ≠ [] →
        jsonLdEntry parse b = LdEntry.raw b ∧ LdEntry.raw b ∈ jsonLdArray parse bodies)
  ∧ (parse b = none → b = [] → ldTruthy (jsonLdEntry parse b) = false)
  ∧ (parse b = some Json.null → ldTruthy (jsonLdEntry parse b) = false)
  ∧ (parse b = some (Json.str []) → ldTruthy (jsonLdEntry parse b) = false) := by
  refine ⟨?_, ?_, ?_, ?_⟩
  · intro hp hne
    have hentry : jsonLdEntry parse b = LdEntry.raw b := by
      simp [jsonLdEntry, hp, hne]
    refine ⟨hentry, ?_⟩
    have htru : ldTruthy (LdEntry.raw b) = true := by
      cases b with
      | nil => exact absurd rfl hne
      | cons c cs => rfl
    have hmap : jsonLdEntry parse b ∈ bodies.map (jsonLdEntry parse) :=
      List.mem_map_of_mem _ hmem
    rw [hentry] at hmap
    exact List.mem_filter.mpr ⟨hmap, htru⟩
  · intro hp hb
    subst hb
    simp [jsonLdEntry, hp, ldTruthy]
  · intro hp
    simp [jsonLdEntry, hp, ldTruthy, jsTruthy]
  · intro hp
    simp [jsonLdEntry, hp, ldTruthy, jsTruthy]

/-- Witness for C7: a non-empty body that fails to parse is kept as
raw text in the array. -/
theorem c7_witness :
    LdEntry.raw ("bad".data) ∈ jsonLdArray (fun _ => none) ["bad".data] :=
  ((c7_jsonld_raw_kept_empty_dropped (fun _ => none) ["bad".data] ("bad".data)
      (List.mem_cons_self _ _)).1 rfl (by decide)).2

/-- C9: the word count of the result counts the whitespace-delimited
non-empty tokens of the normalized main text (article text after
cleaning, falling back to the body text), and the reading time is the
least number of minutes at 200 words per minute, floored at 1. -/
theorem c9_wordcount_readingtime (doc : Doc) (article : Option Article)
    (parse : Str → Option Json) (m : Nat) (h1 : 1 ≤ m)
    (h2 : (extract doc article parse).wordCount ≤ 200 * m) :
    (extract doc article parse).wordCount
        = specTokenCount
            (mainTextOf (cleanedTextContent ((article.bind Article.textContent).getD []))
              (jsOrS doc.bodyText []))
  ∧ (extract doc article parse).readingTimeMinutes
        = readingTimeMinutes (extract doc article parse).wordCount
  ∧ 1 ≤ (extract doc article parse).readingTimeMinutes
  ∧ (extract doc article parse).wordCount
        ≤ 200 * (extract doc article parse).readingTimeMinutes
  ∧ (extract doc article parse).readingTimeMinutes ≤ m := by
  have hwc : (extract doc article parse).wordCount =
      wordCountOf (mainTextOf (cleanedTextContent ((article.bind Article.textContent).getD []))
        (jsOrS doc.bodyText [])) := rfl
  have hrt : (extract doc article parse).readingTimeMinutes =
      readingTimeMinutes (extract doc article parse).wordCount := rfl
  refine ⟨?_, hrt, ?_, ?_, ?_⟩
  · rw [hwc, wordCountOf_eq_spec]
  · rw [hrt]; exact readingTimeMinutes_pos _
  · rw [hrt]; exact le_mul_readingTimeMinutes _
  · rw [hrt]; exact readingTimeMinutes_min _ m h1 h2

/-- A concrete document for the C9 witness: no article, body text of
two words. -/
def docC9 : Doc :=
  { titleText := none
    metaName := fun _ => none
    metaProp := fun _ => none
    canonicalHref := none
    ldScriptBodies := []
    anchorHrefs := []
    headingNodes := []
    imageNodes := []
    bodyText := some ("hello world".data) }

/-- Witness for C9 at a two-word body with m = 1. -/
theorem c9_witness :
    1 ≤ (extract docC9 none (fun _ => none)).readingTimeMinutes
  ∧ (extract docC9 none (fun _ => none)).readingTimeMinutes ≤ 1 :=
  ⟨(c9_wordcount_readingtime docC9 none (fun _ => none) 1 (by decide) (by decide)).2.2.1,
   (c9_wordcount_readingtime docC9 none (fun _ => none) 1 (by decide) (by decide)).2.2.2.2⟩

/-! ### The session manager (route.ts lines 13-21)

`getBrowser` stores the launch promise in `globalThis.__sagashi_browser`
before it settles and never clears it.  The model keeps the settled
value of the stored promise as the shared state and takes the outcome
the launch would have this time as a parameter. -/

/-- The shared module state: `globalThis.__sagashi_browser`, holding
the settled value of the cached launch promise, if any. -/
structure SessionState where
  browserPromise : Option (Except Str Unit)

/-- Lines 13-21: if no promise is cached, start a launch (whose
outcome is `launch`) and cache it; otherwise return the cached
promise, whatever it settled to. -/
def getBrowser (launch : Except Str Unit) (s : SessionState) :
    Except Str Unit × SessionState :=
  match s.browserPromise with
  | some p => (p, s)
  | none => (launch, { browserPromise := some launch })

/-! ### The POST handler (route.ts lines 25-163) -/

/-- The request body after `req.json()`, restricted to the fields that
drive the control flow: `body?.url` and the truthiness of
`opts.screenshot`.  The remaining options (`timeout`, `postWait`,
`blockResources`, `userAgent`) only parameterize the browser calls,
which the environment abstracts, and never change which branch runs. -/
structure RawBody where
  url : Option Str
  screenshotOpt : Bool

/-- Outcomes of the external calls a single request makes, in the
order the handler awaits them.  `bodyParse = none` models a rejected
`req.json()`; `navStatus = none` models `page.goto` throwing (caught
to `null`); `extractOutcome` covers the JSDOM/Readability block, which
may throw; `screenshotOutcome` covers `page.screenshot`. -/
structure Env where
  bodyParse : Option RawBody
  launch : Except Str Unit
  navStatus : Option Nat
  finalUrl : Str
  extractOutcome : Except Str ExtractionResult
  screenshotOutcome : Except Str Str

/-- The success record of lines 123-153 (the timestamp is not
modelled). -/
structure ScrapeResult where
  url : Str
  finalUrl : Str
  status : Nat
  extraction : ExtractionResult
  screenshot : Option Str
  screenshotMime : Option Str

/-- The JSON payload of a response: an error object or a result. -/
inductive RespBody where
  | errorMsg (msg : Str)
  | result (r : ScrapeResult)

/-- An HTTP response of the handler. -/
structure Response where
  status : Nat
  body : RespBody

/-- Which browser-side effects the request performed. -/
structure Trace where
  browserRequested : Bool
  contextOpened : Bool
  pageClosed : Bool
  contextClosed : Bool

/-- Line 31. -/
def missingUrlMsg : Str := "Missing `url` in request body".data

/-- Line 35. -/
def invalidUrlMsg : Str := "Invalid URL".data

/-- `image/png` (line 152). -/
def pngMime : Str := "image/png".data

/-- Lines 25-163: the POST handler.  `validURL u` models
`new URL(u)` not throwing.  The result pairs the response with the
trace of browser effects; `pageClosed`/`contextClosed` record whether
lines 155-156 ran before the response was produced. -/
def POST (validURL : Str → Bool) (env : Env) : Response × Trace :=
  let body := env.bodyParse.getD { url := none, screenshotOpt := false }
  match body.url with
  | none =>
    ({ status := 400, body := .errorMsg missingUrlMsg },
     { browserRequested := false, contextOpened := false, pageClosed := false,
       contextClosed := false })
  | some u =>
    if u = [] then
      ({ status := 400, body := .errorMsg missingUrlMsg },
       { browserRequested := false, contextOpened := false, pageClosed := false,
         contextClosed := false })
    else if validURL u then
      match env.launch with
      | .error e =>
        ({ status := 500, body := .errorMsg e },
         { browserRequested := true, contextOpened := false, pageClosed := false,
           contextClosed := false })
      | .ok _ =>
        match env.extractOutcome with
        | .error e =>
          ({ status := 500, body := .errorMsg e },
           { browserRequested := true, contextOpened := true, pageClosed := false,
             contextClosed := false })
        | .ok ex =>
          let base : ScrapeResult :=
            { url := u, finalUrl := env.finalUrl, status := env.navStatus.getD 0,
              extraction := ex, screenshot := none, screenshotMime := none }
          if body.screenshotOpt then
            match env.screenshotOutcome with
            | .error e =>
              ({ status := 500, body := .errorMsg e },
               { browserRequested := true, contextOpened := true, pageClosed := false,
                 contextClosed := false })
            | .ok shot =>
              ({ status := 200,
                 body := .result { base with screenshot := some shot,
                                             screenshotMime := some pngMime } },
               { browserRequested := true, contextOpened := true, pageClosed := true,
                 contextClosed := true })
          else
            ({ status := 200, body := .result base },
             { browserRequested := true, contextOpened := true, pageClosed := true,
               contextClosed := true })
    else
      ({ status := 400, body := .errorMsg invalidUrlMsg },
       { browserRequested := false, contextOpened := false, pageClosed := false,
         contextClosed := false })

/-! ### Claims about the handler control flow -/

/-- C1 (code bug): when the screenshot option is set and the
screenshot step throws, the handler jumps to the outer catch and
produces the 500 error response without closing the page or the
context — the cleanup of lines 155-156 is skipped on this exit path. -/
theorem c1_cleanup_skipped_on_screenshot_failure :
    POST (fun _ => true)
      { bodyParse := some { url := some ("https://example.com".data), screenshotOpt := true }
        launch := .ok ()
        navStatus := some 200
        finalUrl := "https://example.com".data
        extractOutcome := .ok
          { title := [], description := [], canonical := [], ogImage := [], jsonLd := [],
            article := none, links := [], headings := [], images := [], wordCount := 0,
            readingTimeMinutes := 1 }
        screenshotOutcome := .error ("screenshot failed".data) }
    = ({ status := 500, body := .errorMsg ("screenshot failed".data) },
       { browserRequested := true, contextOpened := true, pageClosed := false,
         contextClosed := false }) := rfl

/-- C2 counterexample: with the screenshot option set and screenshot
capture failing, the handler returns a 500 error response, not the
assembled extraction result. -/
theorem c2_counterexample :
    (POST (fun _ => true)
      { bodyParse := some { url := some ("https://a.example".data), screenshotOpt := true }
        launch := .ok ()
        navStatus := some 200
        finalUrl := "https://a.example".data
        extractOutcome := .ok
          { title := [], description := [], canonical := [], ogImage := [], jsonLd := [],
            article := none, links := [], headings := [], images := [], wordCount := 0,
            readingTimeMinutes := 1 }
        screenshotOutcome := .error ("shot boom".data) }).1
    = { status := 500, body := .errorMsg ("shot boom".data) } := rfl

/-- C2 (amended): if the screenshot option is set and screenshot
capture fails, the handler fails the whole request with a 500 error
response carrying the screenshot error message, instead of returning
the assembled result with the screenshot fields absent. -/
theorem c2_screenshot_failure_fails_request (v : Str → Bool) (env : Env) (b : RawBody)
    (u : Str) (ex : ExtractionResult) (e : Str)
    (h1 : env.bodyParse = some b) (h2 : b.url = some u) (h3 : u ≠ [])
    (h4 : v u = true) (h5 : env.launch = .ok ()) (h6 : env.extractOutcome = .ok ex)
    (h7 : b.screenshotOpt = true) (h8 : env.screenshotOutcome = .error e) :
    (POST v env).1 = { status := 500, body := .errorMsg e } := by
  simp [POST, h1, h2, h3, h4, h5, h6, h7, h8]

/-- Witness for the amended C2. -/
theorem c2_witness :
    (POST (fun _ => true)
      { bodyParse := some { url := some ("https://b.example".data), screenshotOpt := true }
        launch := .ok ()
        navStatus := none
        finalUrl := []
        extractOutcome := .ok
          { title := [], description := [], canonical := [], ogImage := [], jsonLd := [],
            article := none, links := [], headings := [], images := [], wordCount := 0,
            readingTimeMinutes := 1 }
        screenshotOutcome := .error ("w".data) }).1
    = { status := 500, body := .errorMsg ("w".data) } :=
  c2_screenshot_failure_fails_request _ _ _ _ _ _ rfl rfl (by decide) rfl rfl rfl rfl rfl

/-- C3 counterexample: the first call caches the failed launch; a
second call whose launch would succeed still observes the cached
failure instead of retrying. -/
theorem c3_counterexample :
    (getBrowser (.ok ())
        ((getBrowser (.error ("launch failed".data)) { browserPromise := none }).2)).1
      = .error ("launch failed".data) := rfl

/-- C3 (amended): a launch failure makes the current request fail
with a 500 error before any context is opened, and the failed launch
is cached in the shared state: every later `getBrowser` call returns
the same failure without retrying. -/
theorem c3_launch_failure_cached (e : Str) (l : Except Str Unit) (s : SessionState)
    (hs : s.browserPromise = some (.error e))
    (v : Str → Bool) (env : Env) (b : RawBody) (u : Str)
    (h1 : env.bodyParse = some b) (h2 : b.url = some u) (h3 : u ≠ [])
    (h4 : v u = true) (h5 : env.launch = .error e) :
    (getBrowser (.error e) { browserPromise := none }).2
        = { browserPromise := some (.error e) }
  ∧ (getBrowser l s).1 = .error e
  ∧ (getBrowser l s).2 = s
  ∧ (POST v env).1 = { status := 500, body := .errorMsg e }
  ∧ (POST v env).2.contextOpened = false := by
  refine ⟨rfl, ?_, ?_, ?_, ?_⟩
  · simp [getBrowser, hs]
  · simp [getBrowser, hs]
  · simp [POST, h1, h2, h3, h4, h5]
  · simp [POST, h1, h2, h3, h4, h5]

/-- Witness for the amended C3. -/
theorem c3_witness :
    (getBrowser (.ok ()) { browserPromise := some (.error ("boom".data)) }).1
      = .error ("boom".data)
  ∧ (POST (fun _ => true)
      { bodyParse := some { url := some ("https://c.example".data), screenshotOpt := false }
        launch := .error ("boom".data)
        navStatus := none
        finalUrl := []
        extractOutcome := .error []
        screenshotOutcome := .error [] }).1
    = { status := 500, body := .errorMsg ("boom".data) } :=
  ⟨(c3_launch_failure_cached ("boom".data) (.ok ())
      { browserPromise := some (.error ("boom".data)) } rfl (fun _ => true)
      { bodyParse := some { url := some ("https://c.example".data), screenshotOpt := false }
        launch := .error ("boom".data)
        navStatus := none
        finalUrl := []
        extractOutcome := .error []
        screenshotOutcome := .error [] }
      { url := some ("https://c.example".data), screenshotOpt := false }
      ("https://c.example".data) rfl rfl (by decide) rfl rfl).2.1,
   (c3_launch_failure_cached ("boom".data) (.ok ())
      { browserPromise := some (.error ("boom".data)) } rfl (fun _ => true)
      { bodyParse := some { url := some ("https://c.example".data), screenshotOpt := false }
        launch := .error ("boom".data)
        navStatus := none
        finalUrl := []
        extractOutcome := .error []
        screenshotOutcome := .error [] }
      { url := some ("https://c.example".data), screenshotOpt := false }
      ("https://c.example".data) rfl rfl (by decide) rfl rfl).2.2.2.1⟩

/-- C5: a missing url, an empty url, or a url rejected by the URL
parser yields a 400 validation response, and no browser work happens:
the session is never requested and no context is opened. -/
theorem c5_validation_before_browser (v : Str → Bool) (env : Env) (b : RawBody)
    (hb : env.bodyParse = some b)
    (hurl : b.url = none ∨ b.url = some [] ∨ ∃ u, b.url = some u ∧ v u = false) :
    (POST v env).1.status = 400
  ∧ (POST v env).2.browserRequested = false
  ∧ (POST v env).2.contextOpened = false := by
  rcases hurl with h | h | ⟨u, hu, hv⟩
  · refine ⟨?_, ?_, ?_⟩ <;> simp [POST, hb, h]
  · refine ⟨?_, ?_, ?_⟩ <;> simp [POST, hb, h]
  · by_cases hek : u = []
    · subst hek
      refine ⟨?_, ?_, ?_⟩ <;> simp [POST, hb, hu]
    · refine ⟨?_, ?_, ?_⟩ <;> simp [POST, hb, hu, hek, hv]

/-- Witness for C5 with a url the URL parser rejects. -/
theorem c5_witness :
    (POST (fun _ => false)
      { bodyParse := some { url := some ("notaurl".data), screenshotOpt := false }
        launch := .ok ()
        navStatus := none
        finalUrl := []
        extractOutcome := .error []
        screenshotOutcome := .error [] }).1.status = 400
  ∧ (POST (fun _ => false)
      { bodyParse := some { url := some ("notaurl".data), screenshotOpt := false }
        launch := .ok ()
        navStatus := none
        finalUrl := []
        extractOutcome := .error []
        screenshotOutcome := .error [] }).2.browserRequested = false
  ∧ (POST (fun _ => false)
      { bodyParse := some { url := some ("notaurl".data), screenshotOpt := false }
        launch := .ok ()
        navStatus := none
        finalUrl := []
        extractOutcome := .error []
        screenshotOutcome := .error [] }).2.contextOpened = false :=
  c5_validation_before_browser _ _ _ rfl (Or.inr (Or.inr ⟨_, rfl, rfl⟩))

/-- C10: a missing or unparsable request body is treated as the empty
object: the response is the 400 missing-url validation error and no
browser work happens at all. -/
theorem c10_body_parse_failure_is_400 (v : Str → Bool) (env : Env)
    (h : env.bodyParse = none) :
    (POST v env).1 = { status := 400, body := .errorMsg missingUrlMsg }
  ∧ (POST v env).2 = { browserRequested := false, contextOpened := false,
                       pageClosed := false, contextClosed := false } := by
  constructor <;> simp [POST, h]

/-- Witness for C10. -/
theorem c10_witness :
    (POST (fun _ => true)
      { bodyParse := none
        launch := .ok ()
        navStatus := none
        finalUrl := []
        extractOutcome := .error []
        screenshotOutcome := .error [] }).1
    = { status := 400, body := .errorMsg missingUrlMsg } :=
  (c10_body_parse_failure_is_400 (fun _ => true)
      { bodyParse := none
        launch := .ok ()
        navStatus := none
        finalUrl := []
        extractOutcome := .error []
        screenshotOutcome := .error [] } rfl).1

end Sagashi
